import Mathlib

/-!
Shallow embedding of the `install.py` deployment script of the
lad-shell repository.

The script is a sequential orchestrator: it validates bind paths,
creates the installation directories, pulls a singularity container
image, and generates launcher scripts and (optionally) a module file.
We model its observable behaviour as a trace of events over an
abstract host filesystem, together with a final outcome.

Modelling conventions:
  - `FS` is the host filesystem as seen through the three predicates the
    script queries: `os.path.exists`, `os.access(_, W_OK)`, and whether
    `os.makedirs` would succeed on a given path.  `os.makedirs` success
    is recorded by adding the directory to `pathExists`.
  - every external side effect is recorded as an `Event`; subprocess
    invocations through `os.system` are tagged with their call site
    (`runPull` for the singularity pull, `runChmod` for the chmod inside
    `_write_script`), each carrying the exact command string built by
    the script.  File writes through `open(..., 'w')` are tagged
    `writeScript` (from `_write_script`) and `writeModule` (from
    `make_modulefile`), carrying path and full content.
  - Python exceptions become the `Err` type.  `Err.osError` stands for
    the original exception re-raised by `smart_mkdir` when
    `os.makedirs` fails (`raise e`).
  - purely informational `print` calls are not modelled, except the two
    WARNING lines printed when the container is already present, which
    the specification refers to; they become `Event.warn`.
  - `os.path.abspath` is an OS oracle and is passed in as a function
    `absp`; `root_prefix` (computed but never used by the script) is
    omitted.
-/

/-- The exception classes declared by `install.py`, plus `osError` for the
re-raised exception coming out of a failed `os.makedirs` call. -/
inductive Err where
  | unknownVersion
  | containerDownload
  | invalidArgument
  | osError
deriving DecidableEq, Repr

/-- Observable side effects of one run of the script, in program order. -/
inductive Event where
  | mkdir (dir : String)
  | runPull (cmd : String)
  | runMove (cmd : String)
  | runChmod (cmd : String)
  | writeScript (path content : String)
  | writeModule (path content : String)
  | warn (msg : String)
deriving DecidableEq, Repr

/-- Host filesystem oracle: existence, writability (`os.access` with
`W_OK`), and whether `os.makedirs` would succeed on a missing path. -/
structure FS where
  pathExists : String → Bool
  writable : String → Bool
  mkdirOk : String → Bool

/-- Effect of a successful `os.makedirs dir` on the modelled filesystem:
the directory now exists. -/
def FS.mkdir (fs : FS) (d : String) : FS :=
  { fs with pathExists := fun p => if p = d then true else fs.pathExists p }

/-- Python `sep.join(xs)` on a list of strings. -/
def pyJoin (sep : String) : List String → String
  | [] => ""
  | [x] => x
  | x :: y :: xs => x ++ sep ++ pyJoin sep (y :: xs)

/-- `DOCKER_REF = r'docker://apanta123/{img}:{tag}'`, after `.format`. -/
def dockerRef (img tag : String) : String :=
  "docker://apanta123/" ++ img ++ ":" ++ tag

/-- `BIND_DIRECTIVE = '-B {0}:{0}'`, after `.format(path)`. -/
def bindFmt (p : String) : String :=
  "-B " ++ p ++ ":" ++ p

/-- `' '.join([BIND_DIRECTIVE.format(path) for path in paths])`. -/
def bindDirective (paths : List String) : String :=
  pyJoin " " (paths.map bindFmt)

/-- The pull command string built at the download site:
`' '.join(['singularity pull', '--force', container, DOCKER_REF.format(...)])`. -/
def pullCmd (img tag container : String) : String :=
  pyJoin " " (["singularity pull", "--force", container, dockerRef img tag])

/- The `_LAUNCHER` template, split at its format holes `{bind}`,
`{container}`, `{exe}`.  The Python source is a non-raw triple-quoted
string, so the `\n` inside the reassembly line is a real newline, and
`{{`/`}}` render as single braces. -/

/-- Literal text of `_LAUNCHER` before the first format hole. -/
def lkPre : String :=
  "#!/usr/bin/env bash\n\n## Boilerplate to make pipes work\npiped_args=\nif [ -p /dev/stdin ]; then\n  # If we want to read the input line by line\n  while IFS= read line; do\n    if [ -z \"$piped_args\" ]; then\n      piped_args=\"$\x7bline\x7d\"\n    else \n      piped_args=\"$\x7bpiped_args\x7d\n$\x7bline\x7d\"\n    fi\n  done\nfi\n\n## Fire off the application wrapper\nif [ $\x7bpiped_args\x7d ]  ; then\n    echo -e $\x7bpiped_args\x7d | singularity exec "

/-- Literal text of `_LAUNCHER` between the two exec lines. -/
def lkMid : String := " $@\nelse\n    singularity exec "

/-- Literal text of `_LAUNCHER` after the last format hole. -/
def lkPost : String := " $@\nfi\n"

/-- `_LAUNCHER.format(container=container, bind=bind, exe=exe)`. -/
def launcherContent (container bind exe : String) : String :=
  lkPre ++ bind ++ " " ++ container ++ " " ++ exe ++ lkMid ++
    bind ++ " " ++ container ++ " " ++ exe ++ lkPost

/-- The shape of the two application-invocation lines of a rendered
launcher: `singularity exec <bind> <container> <exe> $@`. -/
def execLine (container bind exe : String) : String :=
  "singularity exec " ++ bind ++ " " ++ container ++ " " ++ exe ++ " $@"

/- The `_MODULEFILE` template, split at its format holes `{name}`
(twice in text, a third time inside the whatis), `{version}` (twice)
and `{bindir}`.  `{{`/`}}` around the Tcl proc render as single
braces. -/

/-- Modulefile literal up to the first `{name} {version}` pair. -/
def mfL1 : String :=
  "#%Module1.0#####################################################################\n##\n## for "

/-- Modulefile literal between the header and the `puts stderr` name hole. -/
def mfL2 : String :=
  "\n##\nproc ModulesHelp \x7b \x7d \x7b\n    puts stderr \"This module sets up the environment for the "

/-- Modulefile literal between the `puts stderr` name hole and the
`module-whatis` name/version holes. -/
def mfL3 : String :=
  " container\"\n\x7d\nmodule-whatis \""

/-- Modulefile literal between the whatis line and the `{bindir}` hole;
contains the hard-coded Tcl `set version 4.1.4` line. -/
def mfL4 : String :=
  "\"\n\n# For Tcl script use only\nset version 4.1.4\n\nprepend-path    PATH    "

/-- Final newline of the modulefile template. -/
def mfL5 : String := "\n"

/-- `_MODULEFILE.format(name=name, version=version, bindir=bindir)`. -/
def moduleContent (name version bindir : String) : String :=
  mfL1 ++ name ++ " " ++ version ++ mfL2 ++ name ++ mfL3 ++
    name ++ " " ++ version ++ mfL4 ++ bindir ++ mfL5

/-- `_write_script(path, content)`: writes the file, then runs
`chmod +x {path}` through `os.system`. -/
def write_script (path content : String) : List Event :=
  [Event.writeScript path content, Event.runChmod ("chmod +x " ++ path)]

/-- `make_launcher(app, container, bindir, bind, exe)`.  The Python
default `exe=None` and the falsy check `if not exe` (which also treats
the empty string as unset) are modelled with `Option String`. -/
def make_launcher (app container bindir : String) (bind : String)
    (exe : Option String) : List Event :=
  let e := match exe with
    | none => app
    | some s => if s = "" then app else s
  let launcher_path := bindir ++ "/" ++ app
  write_script launcher_path (launcherContent container bind e)

/-- `make_modulefile(project, version, moduledir, bindir)`: renders the
template and writes it to `moduledir/version`. -/
def make_modulefile (project version moduledir bindir : String) : Event :=
  Event.writeModule (moduledir ++ "/" ++ version)
    (moduleContent project version bindir)

/-- `smart_mkdir(dir)`: `mkdir -p` with a write check.  If the directory
is missing and `os.makedirs` fails, the original exception is re-raised
(modelled `Err.osError`); if the directory (pre-existing or freshly
created) is not writable, `InvalidArgumentError` is raised. -/
def smart_mkdir (fs : FS) (d : String) : Except Err (FS × List Event) :=
  if fs.pathExists d then
    if fs.writable d then Except.ok (fs, []) else Except.error Err.invalidArgument
  else
    if fs.mkdirOk d then
      let fs1 := fs.mkdir d
      if fs1.writable d then Except.ok (fs1, [Event.mkdir d])
      else Except.error Err.invalidArgument
    else Except.error Err.osError

/-- The `for dir in dirs: smart_mkdir(dir)` loop, threading the
filesystem and accumulating events until the first failure. -/
def mkdirAll : FS → List String → List Event × FS × Except Err Unit
  | fs, [] => ([], fs, Except.ok ())
  | fs, d :: ds =>
    match smart_mkdir fs d with
    | Except.error e => ([], fs, Except.error e)
    | Except.ok (fs1, evs) =>
      match mkdirAll fs1 ds with
      | (evs2, fs2, r) => (evs ++ evs2, fs2, r)

/-- The parsed CLI arguments (`args`).  `pfx` is the positional
`prefix` argument.  `bindPaths` is `args.bind_paths` (argparse
`append`, default `None`); `modulePath` is `args.module_path`
(default `None`). -/
structure Config where
  pfx : String
  container : String
  version : String
  force : Bool
  bindPaths : Option (List String)
  modulePath : Option String

/-- The bind-path validation loop: raises `InvalidArgumentError` at the
first supplied path that does not exist on the host. -/
def checkBindPaths (fs : FS) : List String → Except Err Unit
  | [] => Except.ok ()
  | p :: ps =>
    if fs.pathExists p then checkBindPaths fs ps
    else Except.error Err.invalidArgument

/-- Lines 176-184: `bind_directive` starts empty; if `args.bind_paths`
is truthy and non-empty, every path is checked for existence and the
directive string is assembled. -/
def bindDirectiveOf (cfg : Config) (fs : FS) : Except Err String :=
  match cfg.bindPaths with
  | none => Except.ok ""
  | some ps =>
    if ps.isEmpty then Except.ok ""
    else
      match checkBindPaths fs ps with
      | Except.error e => Except.error e
      | Except.ok () => Except.ok (bindDirective ps)

/-- `if not args.module_path: deploy_local = True`; Python treats both
`None` and the empty string as falsy. -/
def deployLocalOf (cfg : Config) : Bool :=
  match cfg.modulePath with
  | none => true
  | some s => if s = "" then true else false

/-- `bindir = '{}/bin'.format(prefix)` with `prefix = abspath(args.prefix)`. -/
def bindirOf (cfg : Config) (absp : String → String) : String :=
  absp cfg.pfx ++ "/bin"

/-- `libdir = '{}/lib'.format(prefix)`. -/
def libdirOf (cfg : Config) (absp : String → String) : String :=
  absp cfg.pfx ++ "/lib"

/-- `libexecdir = '{}/libexec'.format(prefix)`. -/
def libexecdirOf (cfg : Config) (absp : String → String) : String :=
  absp cfg.pfx ++ "/libexec"

/-- `moduledir = '{}/{}'.format(args.module_path, args.container)`,
only used when a module path was supplied. -/
def moduledirOf (cfg : Config) : String :=
  (match cfg.modulePath with | none => "" | some s => s) ++ "/" ++ cfg.container

/-- The list `dirs` handed to the `smart_mkdir` loop: `bindir`,
`libdir`, `libexecdir`, and `moduledir` when not deploying locally. -/
def dirsOf (cfg : Config) (absp : String → String) : List String :=
  [bindirOf cfg absp, libdirOf cfg absp, libexecdirOf cfg absp] ++
    (if deployLocalOf cfg then [] else [moduledirOf cfg])

/-- `container = '{}/{}-{}.sif'.format(libdir, img, version_docker)`. -/
def containerPath (cfg : Config) (absp : String → String) : String :=
  libdirOf cfg absp ++ "/" ++ cfg.container ++ "-" ++ cfg.version ++ ".sif"

/-- The two WARNING prints emitted when the container is already
present and `force` is off. -/
def warnEvents (container : String) : List Event :=
  [Event.warn ("WARNING: Container found at " ++ container),
   Event.warn (" ---> run with -f to force a re-download")]

/-- `SHORTCUTS = ['lad-shell']`.  An entry is either a plain
application name or an `(app, exe)` tuple, as the loop's
`type(prog) == tuple` check allows. -/
def shortcuts : List (String ⊕ String × String) :=
  [Sum.inl ("lad-shell")]

/-- One iteration of the shortcut loop: extract `app` and `exe` from
the entry and call `make_launcher`. -/
def launcherEvents (container bindir bind : String)
    (prog : String ⊕ String × String) : List Event :=
  match prog with
  | Sum.inl s => make_launcher s container bindir bind (some s)
  | Sum.inr (a, e) => make_launcher a container bindir bind (some e)

/-- Everything after a successful container step: the optional module
file (lines 218-219), then the launcher loop (lines 222-231). -/
def generatorEvents (cfg : Config) (absp : String → String)
    (bind : String) : List Event :=
  (if deployLocalOf cfg then []
   else [make_modulefile cfg.container cfg.version (moduledirOf cfg)
          (bindirOf cfg absp)]) ++
  (shortcuts.map
    (launcherEvents (containerPath cfg absp) (bindirOf cfg absp) bind)).flatten

/-- Lines 203-233, entered once the directories have been provisioned:
decide whether to pull (file absent or `--force`), run the pull and
fail on a non-zero exit, otherwise warn; then generate the module file
and the launchers. -/
def afterMkdir (cfg : Config) (fs1 : FS) (bind : String)
    (pullExit : String → Nat) (absp : String → String)
    (mkEvs : List Event) : List Event × FS × Except Err Unit :=
  let container := containerPath cfg absp
  if !fs1.pathExists container || cfg.force then
    let cmd := pullCmd cfg.container cfg.version container
    if pullExit cmd ≠ 0 then
      (mkEvs ++ [Event.runPull cmd], fs1, Except.error Err.containerDownload)
    else
      (mkEvs ++ [Event.runPull cmd] ++ generatorEvents cfg absp bind, fs1,
        Except.ok ())
  else
    (mkEvs ++ warnEvents container ++ generatorEvents cfg absp bind, fs1,
      Except.ok ())

/-- One full run of the `__main__` block: bind-path validation,
directory provisioning, container step, generators.  `pullExit` is the
exit status `os.system` reports for a given command; `absp` is
`os.path.abspath`. -/
def run (cfg : Config) (fs0 : FS) (pullExit : String → Nat)
    (absp : String → String) : List Event × FS × Except Err Unit :=
  match bindDirectiveOf cfg fs0 with
  | Except.error e => ([], fs0, Except.error e)
  | Except.ok bind =>
    match mkdirAll fs0 (dirsOf cfg absp) with
    | (mkEvs, fs1, Except.error e) => (mkEvs, fs1, Except.error e)
    | (mkEvs, fs1, Except.ok ()) => afterMkdir cfg fs1 bind pullExit absp mkEvs

/-- Modelled from the spec: the repository's other install-script
revisions (not present under `src/`) contain a Provisioner variant
that first pulls the container into a temporary directory and then
relocates it into the final prefix, "treating the relocation step as
equally fatal on failure".  Faithful to spec section 4.2: both the
pull and the relocation are external commands whose non-zero exit
raises `ContainerDownloadError`. -/
def pullViaTmp (img tag tmpdir finalPath : String)
    (pullExitCode moveExitCode : Nat) : List Event × Except Err Unit :=
  let tmpContainer := tmpdir ++ "/" ++ img ++ "-" ++ tag ++ ".sif"
  let pcmd := pullCmd img tag tmpContainer
  if pullExitCode ≠ 0 then
    ([Event.runPull pcmd], Except.error Err.containerDownload)
  else
    let mcmd := "mv " ++ tmpContainer ++ " " ++ finalPath
    if moveExitCode ≠ 0 then
      ([Event.runPull pcmd, Event.runMove mcmd],
        Except.error Err.containerDownload)
    else
      ([Event.runPull pcmd, Event.runMove mcmd], Except.ok ())

/-- Recognises the pull subprocess invocation in a trace. -/
def Event.isPull : Event → Bool
  | Event.runPull _ => true
  | _ => false

/-- Recognises a module-file write in a trace. -/
def Event.isModuleWrite : Event → Bool
  | Event.writeModule _ _ => true
  | _ => false

/-- Whether a trace invokes the external pull command. -/
def pullInvoked (evs : List Event) : Bool :=
  evs.any Event.isPull

/-- The run got past argument validation and directory provisioning:
the bind-path check succeeded and every `smart_mkdir` succeeded. -/
def provisioned (cfg : Config) (fs0 : FS) (absp : String → String) : Prop :=
  (bindDirectiveOf cfg fs0).isOk = true ∧
    (mkdirAll fs0 (dirsOf cfg absp)).2.2 = Except.ok ()

/- Concrete fixtures used by witnesses and counterexamples. -/

/-- A host on which every path exists, is writable and creatable. -/
def fsAll : FS := ⟨fun _ => true, fun _ => true, fun _ => true⟩

/-- A host on which no path exists yet but every creation succeeds. -/
def fsEmpty : FS := ⟨fun _ => false, fun _ => true, fun _ => true⟩

/-- A host on which no path exists and every `os.makedirs` fails. -/
def fsNoMk : FS := ⟨fun _ => false, fun _ => true, fun _ => false⟩

/-- A baseline argument set: `install.py /opt/lad`. -/
def cfgBase : Config :=
  { pfx := "/opt/lad", container := "ladlib", version := "main",
    force := false, bindPaths := none, modulePath := none }

/-- Baseline arguments plus `--force`. -/
def cfgForce : Config := { cfgBase with force := true }

/-- Baseline arguments plus `-b /data`. -/
def cfgBind : Config := { cfgBase with bindPaths := some (["/data"]) }

/-- Baseline arguments plus `-m /modroot`. -/
def cfgMod : Config := { cfgBase with modulePath := some ("/modroot") }

deriving instance DecidableEq for Except

set_option maxRecDepth 16384

/- Helper lemmas about the provisioning loop and the event traces. -/

theorem smart_mkdir_ok {fs fs1 : FS} {d : String} {evs : List Event}
    (h : smart_mkdir fs d = Except.ok (fs1, evs)) :
    fs1.pathExists d = true ∧ fs1.writable = fs.writable ∧
      (∀ p, fs.pathExists p = true → fs1.pathExists p = true) ∧
      fs1.writable d = true ∧ (∀ e, e ∈ evs → ∃ x, e = Event.mkdir x) := by
  unfold smart_mkdir at h
  split at h
  · split at h
    · injection h with h2
      injection h2 with h3 h4
      subst h3; subst h4
      refine ⟨by assumption, rfl, fun p hp => hp, by assumption, by simp⟩
    · exact absurd h (by simp)
  · dsimp only at h
    split at h
    · split at h
      · injection h with h2
        injection h2 with h3 h4
        subst h3; subst h4
        refine ⟨by simp [FS.mkdir], rfl, ?_, by assumption, ?_⟩
        · intro p hp
          simp [FS.mkdir]
          exact Or.inr hp
        · intro e he
          simp at he
          exact ⟨d, he⟩
      · exact absurd h (by simp)
    · exact absurd h (by simp)

theorem mkdirAll_ok {fs fs2 : FS} {ds : List String} {evs : List Event}
    (h : mkdirAll fs ds = (evs, fs2, Except.ok ())) :
    (∀ d, d ∈ ds → fs2.pathExists d = true ∧ fs2.writable d = true) ∧
      fs2.writable = fs.writable ∧
      (∀ p, fs.pathExists p = true → fs2.pathExists p = true) := by
  induction ds generalizing fs evs with
  | nil =>
    unfold mkdirAll at h
    injection h with h1 h2
    injection h2 with h3 h4
    subst h3
    exact ⟨by simp, rfl, fun p hp => hp⟩
  | cons d ds ih =>
    unfold mkdirAll at h
    cases hs : smart_mkdir fs d with
    | error e =>
      rw [hs] at h
      simp at h
    | ok pr =>
      obtain ⟨fs1, evs1⟩ := pr
      rw [hs] at h
      dsimp only at h
      cases hm2 : mkdirAll fs1 ds with
      | mk evs2 rest =>
        obtain ⟨fs2a, r⟩ := rest
        rw [hm2] at h
        dsimp only at h
        injection h with h1 h2
        injection h2 with h3 h4
        subst h3; subst h4
        obtain ⟨hd1, hd2, hd3, hd4, _⟩ := smart_mkdir_ok hs
        obtain ⟨ih1, ih2, ih3⟩ := ih hm2
        refine ⟨?_, ?_, ?_⟩
        · intro x hx
          rcases List.mem_cons.mp hx with hx | hx
          · subst hx
            refine ⟨ih3 x hd1, ?_⟩
            rw [ih2, hd2] at *
            rw [ih2]
            exact hd4
          · exact ih1 x hx
        · rw [ih2, hd2]
        · intro p hp
          exact ih3 p (hd3 p hp)

theorem mkdirAll_events (fs : FS) (ds : List String) :
    ∀ e, e ∈ (mkdirAll fs ds).1 → ∃ x, e = Event.mkdir x := by
  induction ds generalizing fs with
  | nil => simp [mkdirAll]
  | cons d ds ih =>
    intro e he
    unfold mkdirAll at he
    cases hs : smart_mkdir fs d with
    | error err => rw [hs] at he; simp at he
    | ok pr =>
      obtain ⟨fs1, evs1⟩ := pr
      rw [hs] at he
      dsimp only at he
      cases hm2 : mkdirAll fs1 ds with
      | mk evs2 rest =>
        rw [hm2] at he
        simp at he
        rcases he with he | he
        · obtain ⟨_, _, _, _, h5⟩ := smart_mkdir_ok hs
          exact h5 e he
        · have := ih fs1 e
          rw [hm2] at this
          exact this he

theorem no_pull_of_mkdir_events {evs : List Event}
    (h : ∀ e, e ∈ evs → ∃ x, e = Event.mkdir x) :
    evs.any Event.isPull = false := by
  simp only [List.any_eq_false]
  intro e he
  obtain ⟨x, rfl⟩ := h e he
  simp [Event.isPull]

theorem no_module_of_mkdir_events {evs : List Event}
    (h : ∀ e, e ∈ evs → ∃ x, e = Event.mkdir x) :
    evs.filter Event.isModuleWrite = [] := by
  rw [List.filter_eq_nil_iff]
  intro e he
  obtain ⟨x, rfl⟩ := h e he
  simp [Event.isModuleWrite]

theorem run_eq_afterMkdir {cfg : Config} {fs0 fs1 : FS} {pe : String → Nat}
    {absp : String → String} {bind : String} {mkEvs : List Event}
    (hb : bindDirectiveOf cfg fs0 = Except.ok bind)
    (hm : mkdirAll fs0 (dirsOf cfg absp) = (mkEvs, fs1, Except.ok ())) :
    run cfg fs0 pe absp = afterMkdir cfg fs1 bind pe absp mkEvs := by
  unfold run
  rw [hb, hm]

theorem checkBindPaths_error_of_missing {fs : FS} {ps : List String} {p : String}
    (hp : p ∈ ps) (he : fs.pathExists p = false) :
    checkBindPaths fs ps = Except.error Err.invalidArgument := by
  induction ps with
  | nil => simp at hp
  | cons q qs ih =>
    unfold checkBindPaths
    by_cases hq : fs.pathExists q = true
    · rw [if_pos hq]
      rcases List.mem_cons.mp hp with h | h
      · subst h; rw [hq] at he; cases he
      · exact ih h
    · rw [if_neg hq]

theorem checkBindPaths_ok_of_all {fs : FS} {ps : List String}
    (h : ∀ p, p ∈ ps → fs.pathExists p = true) :
    checkBindPaths fs ps = Except.ok () := by
  induction ps with
  | nil => rfl
  | cons q qs ih =>
    unfold checkBindPaths
    rw [if_pos (h q (List.mem_cons_self q qs))]
    exact ih (fun p hp => h p (List.mem_cons_of_mem q hp))

theorem checkBindPaths_error_eq {fs : FS} {ps : List String} {e : Err}
    (h : checkBindPaths fs ps = Except.error e) : e = Err.invalidArgument := by
  induction ps with
  | nil => simp [checkBindPaths] at h
  | cons q qs ih =>
    unfold checkBindPaths at h
    split at h
    · exact ih h
    · injection h with h1
      exact h1.symm

theorem bindDirectiveOf_error_eq {cfg : Config} {fs : FS} {e : Err}
    (h : bindDirectiveOf cfg fs = Except.error e) : e = Err.invalidArgument := by
  unfold bindDirectiveOf at h
  split at h
  · cases h
  · split at h
    · cases h
    · split at h
      · injection h with h1
        subst h1
        exact checkBindPaths_error_eq (by assumption)
      · cases h

theorem bindDirectiveOf_error_of_missing {cfg : Config} {fs : FS}
    {ps : List String} {p : String}
    (hps : cfg.bindPaths = some ps) (hp : p ∈ ps)
    (he : fs.pathExists p = false) :
    bindDirectiveOf cfg fs = Except.error Err.invalidArgument := by
  unfold bindDirectiveOf
  rw [hps]
  have hne : ps.isEmpty = false := by
    cases ps
    · simp at hp
    · rfl
  dsimp only
  rw [if_neg (by rw [hne]; simp), checkBindPaths_error_of_missing hp he]

theorem bindDirectiveOf_ok_of_all {cfg : Config} {fs : FS} {ps : List String}
    (hps : cfg.bindPaths = some ps) (hne : ps ≠ [])
    (h : ∀ p, p ∈ ps → fs.pathExists p = true) :
    bindDirectiveOf cfg fs = Except.ok (bindDirective ps) := by
  unfold bindDirectiveOf
  rw [hps]
  have hne2 : ps.isEmpty = false := by
    cases ps
    · exact absurd rfl hne
    · rfl
  dsimp only
  rw [if_neg (by rw [hne2]; simp), checkBindPaths_ok_of_all h]

theorem smart_mkdir_error_eq {fs : FS} {d : String} {e : Err}
    (h : smart_mkdir fs d = Except.error e) :
    e = Err.invalidArgument ∨ e = Err.osError := by
  unfold smart_mkdir at h
  split at h
  · split at h
    · cases h
    · injection h with h1; exact Or.inl h1.symm
  · dsimp only at h
    split at h
    · split at h
      · cases h
      · injection h with h1; exact Or.inl h1.symm
    · injection h with h1; exact Or.inr h1.symm

theorem mkdirAll_error_eq {fs fs2 : FS} {ds : List String}
    {evs : List Event} {e : Err}
    (h : mkdirAll fs ds = (evs, fs2, Except.error e)) :
    e = Err.invalidArgument ∨ e = Err.osError := by
  induction ds generalizing fs evs with
  | nil =>
    unfold mkdirAll at h
    injection h with h1 h2
    injection h2 with h3 h4
    cases h4
  | cons d ds ih =>
    unfold mkdirAll at h
    cases hs : smart_mkdir fs d with
    | error e2 =>
      rw [hs] at h
      injection h with h1 h2
      injection h2 with h3 h4
      injection h4 with h5
      subst h5
      exact smart_mkdir_error_eq hs
    | ok pr =>
      obtain ⟨fs1, evs1⟩ := pr
      rw [hs] at h
      dsimp only at h
      cases hm2 : mkdirAll fs1 ds with
      | mk evs2 rest =>
        obtain ⟨fs2a, r⟩ := rest
        rw [hm2] at h
        dsimp only at h
        injection h with h1 h2
        injection h2 with h3 h4
        subst h3; subst h4
        exact ih hm2

theorem afterMkdir_fs (cfg : Config) (fs1 : FS) (bind : String)
    (pe : String → Nat) (absp : String → String) (mkEvs : List Event) :
    (afterMkdir cfg fs1 bind pe absp mkEvs).2.1 = fs1 := by
  unfold afterMkdir
  dsimp only
  split
  · split <;> rfl
  · rfl

theorem afterMkdir_result (cfg : Config) (fs1 : FS) (bind : String)
    (pe : String → Nat) (absp : String → String) (mkEvs : List Event) :
    (afterMkdir cfg fs1 bind pe absp mkEvs).2.2 = Except.ok () ∨
      (afterMkdir cfg fs1 bind pe absp mkEvs).2.2 =
        Except.error Err.containerDownload := by
  unfold afterMkdir
  dsimp only
  split
  · split
    · exact Or.inr rfl
    · exact Or.inl rfl
  · exact Or.inl rfl


theorem provisioned_elim {cfg : Config} {fs0 : FS} {absp : String → String}
    (h : provisioned cfg fs0 absp) :
    ∃ bind mkEvs fs1, bindDirectiveOf cfg fs0 = Except.ok bind ∧
      mkdirAll fs0 (dirsOf cfg absp) = (mkEvs, fs1, Except.ok ()) := by
  obtain ⟨h1, h2⟩ := h
  cases hb : bindDirectiveOf cfg fs0 with
  | error e => rw [hb] at h1; simp [Except.isOk, Except.toBool] at h1
  | ok bind =>
    cases hm : mkdirAll fs0 (dirsOf cfg absp) with
    | mk mkEvs rest =>
      obtain ⟨fs1, r⟩ := rest
      rw [hm] at h2
      dsimp only at h2
      subst h2
      exact ⟨bind, mkEvs, fs1, rfl, rfl⟩

theorem run_fs1 {cfg : Config} {fs0 fs1 : FS} (pe : String → Nat)
    {absp : String → String} {bind : String} {mkEvs : List Event}
    (hb : bindDirectiveOf cfg fs0 = Except.ok bind)
    (hm : mkdirAll fs0 (dirsOf cfg absp) = (mkEvs, fs1, Except.ok ())) :
    (run cfg fs0 pe absp).2.1 = fs1 := by
  rw [run_eq_afterMkdir hb hm]
  exact afterMkdir_fs cfg fs1 bind pe absp mkEvs

theorem run_ok_elim {cfg : Config} {fs0 : FS} {pe : String → Nat}
    {absp : String → String}
    (h : (run cfg fs0 pe absp).2.2 = Except.ok ()) :
    ∃ bind mkEvs, bindDirectiveOf cfg fs0 = Except.ok bind ∧
      mkdirAll fs0 (dirsOf cfg absp) =
        (mkEvs, (run cfg fs0 pe absp).2.1, Except.ok ()) := by
  cases hb : bindDirectiveOf cfg fs0 with
  | error e =>
    unfold run at h
    rw [hb] at h
    dsimp only at h
    cases h
  | ok bind =>
    cases hm : mkdirAll fs0 (dirsOf cfg absp) with
    | mk mkEvs rest =>
      obtain ⟨fs1, r⟩ := rest
      cases r with
      | error e =>
        unfold run at h
        rw [hb] at h
        dsimp only at h
        rw [hm] at h
        dsimp only at h
        cases h
      | ok u =>
        cases u
        rw [run_fs1 pe hb hm]
        exact ⟨bind, mkEvs, rfl, rfl⟩

/- Trace lemmas for the generator phase. -/

theorem generatorEvents_no_pull (cfg : Config) (absp : String → String)
    (bind : String) :
    (generatorEvents cfg absp bind).any Event.isPull = false := by
  unfold generatorEvents
  cases hd : deployLocalOf cfg <;>
    simp [shortcuts, launcherEvents, make_launcher, write_script,
      make_modulefile, Event.isPull]

theorem generatorEvents_filter_module (cfg : Config) (absp : String → String)
    (bind : String) :
    (generatorEvents cfg absp bind).filter Event.isModuleWrite =
      if deployLocalOf cfg then []
      else [make_modulefile cfg.container cfg.version (moduledirOf cfg)
              (bindirOf cfg absp)] := by
  unfold generatorEvents
  cases hd : deployLocalOf cfg <;>
    simp [shortcuts, launcherEvents, make_launcher, write_script,
      make_modulefile, Event.isModuleWrite]

theorem warnEvents_no_pull (c : String) :
    (warnEvents c).any Event.isPull = false := by
  simp [warnEvents, Event.isPull]

theorem warnEvents_filter_module (c : String) :
    (warnEvents c).filter Event.isModuleWrite = [] := by
  simp [warnEvents, Event.isModuleWrite]


/-- C2: if some user-supplied bind path does not exist on the host, the run
fails with `InvalidArgumentError` with an empty event trace (no directory
created, no subprocess invoked) and the filesystem unchanged. -/
theorem claim2_bad_bind_path_aborts_early (cfg : Config) (fs0 : FS)
    (pe : String → Nat) (absp : String → String) (ps : List String) (p : String)
    (hps : cfg.bindPaths = some ps) (hp : p ∈ ps)
    (he : fs0.pathExists p = false) :
    run cfg fs0 pe absp = ([], fs0, Except.error Err.invalidArgument) := by
  unfold run
  rw [bindDirectiveOf_error_of_missing hps hp he]

/-- C2 witness: `-b /data` on an empty host aborts with
`InvalidArgumentError` before any event. -/
theorem claim2_witness :
    run cfgBind fsEmpty (fun _ => 0) id =
      ([], fsEmpty, Except.error Err.invalidArgument) :=
  claim2_bad_bind_path_aborts_early cfgBind fsEmpty (fun _ => 0) id
    (["/data"]) ("/data") rfl (by simp) rfl

/-- C3 counterexample: when creating a missing directory fails, the code
re-raises the original exception from `os.makedirs` (`raise e`), not
`InvalidArgumentError`; so the Provisioner step can terminate with an error
that is not `InvalidArgumentError` while the directory neither exists nor is
usable.  Shown both on `smart_mkdir` and on a whole run. -/
theorem claim3_counterexample :
    smart_mkdir fsNoMk ("/opt/lad/bin") = Except.error Err.osError ∧
      Err.osError ≠ Err.invalidArgument ∧
      (run cfgBase fsNoMk (fun _ => 0) id).2.2 = Except.error Err.osError := by
  refine ⟨rfl, by decide, rfl⟩

/-- C3 (amended): when creating a missing directory fails, `smart_mkdir`
re-raises the original OS exception (not `InvalidArgumentError`); when the
directory (pre-existing, or freshly created) lacks write permission it
raises `InvalidArgumentError`; and after a successful run every required
directory exists and is writable. -/
theorem claim3_provisioner_dirs (cfg : Config) (fs0 : FS) (pe : String → Nat)
    (absp : String → String)
    (hok : (run cfg fs0 pe absp).2.2 = Except.ok ()) :
    (∀ fs d, fs.pathExists d = false → fs.mkdirOk d = false →
        smart_mkdir fs d = Except.error Err.osError) ∧
    (∀ fs d, fs.pathExists d = true → fs.writable d = false →
        smart_mkdir fs d = Except.error Err.invalidArgument) ∧
    (∀ fs d, fs.pathExists d = false → fs.mkdirOk d = true →
        (fs.mkdir d).writable d = false →
        smart_mkdir fs d = Except.error Err.invalidArgument) ∧
    (∀ d, d ∈ dirsOf cfg absp →
        (run cfg fs0 pe absp).2.1.pathExists d = true ∧
        (run cfg fs0 pe absp).2.1.writable d = true) := by
  refine ⟨?_, ?_, ?_, ?_⟩
  · intro fs d h1 h2
    unfold smart_mkdir
    rw [if_neg (by rw [h1]; simp), if_neg (by rw [h2]; simp)]
  · intro fs d h1 h2
    unfold smart_mkdir
    rw [if_pos h1, if_neg (by rw [h2]; simp)]
  · intro fs d h1 h2 h3
    unfold smart_mkdir
    rw [if_neg (by rw [h1]; simp), if_pos h2]
    dsimp only
    rw [if_neg (by rw [h3]; simp)]
  · obtain ⟨bind, mkEvs, hb, hm⟩ := run_ok_elim hok
    intro d hd
    exact (mkdirAll_ok hm).1 d hd

/-- C3 witness for the amended provisioning claim, on a successful concrete
run over an initially empty host. -/
theorem claim3_witness :
    (run cfgBase fsEmpty (fun _ => 0) id).2.1.pathExists ("/opt/lad/bin") = true ∧
      (run cfgBase fsEmpty (fun _ => 0) id).2.1.writable ("/opt/lad/bin") = true :=
  (claim3_provisioner_dirs cfgBase fsEmpty (fun _ => 0) id rfl).2.2.2
    ("/opt/lad/bin") (by simp [dirsOf, bindirOf, deployLocalOf, cfgBase])

/-- C8: the temporary-download variant of the Provisioner (modelled from the
spec, see `pullViaTmp`) treats a non-zero exit of the relocation step as
fatal in the same way as a failed pull: both raise `ContainerDownloadError`,
and on success the artifact is relocated to the final path. -/
theorem claim8_tmp_variant (img tag tmpdir finalPath : String) (e1 e2 : Nat) :
    (e1 ≠ 0 →
      (pullViaTmp img tag tmpdir finalPath e1 e2).2 =
        Except.error Err.containerDownload) ∧
    (e1 = 0 → e2 ≠ 0 →
      (pullViaTmp img tag tmpdir finalPath e1 e2).2 =
        Except.error Err.containerDownload) ∧
    (e1 = 0 → e2 = 0 →
      (pullViaTmp img tag tmpdir finalPath e1 e2).2 = Except.ok () ∧
        Event.runMove ("mv " ++ (tmpdir ++ "/" ++ img ++ "-" ++ tag ++ ".sif")
            ++ " " ++ finalPath) ∈ (pullViaTmp img tag tmpdir finalPath e1 e2).1) := by
  refine ⟨?_, ?_, ?_⟩
  · intro h1
    simp [pullViaTmp, h1]
  · intro h1 h2
    simp [pullViaTmp, h1, h2]
  · intro h1 h2
    simp [pullViaTmp, h1, h2]

/-- C8 witness: a failed relocation after a successful pull is fatal. -/
theorem claim8_witness :
    (pullViaTmp ("ladlib") ("main") ("/tmp") ("/opt/lad/lib/ladlib-main.sif") 0 1).2 =
      Except.error Err.containerDownload :=
  (claim8_tmp_variant ("ladlib") ("main") ("/tmp")
    ("/opt/lad/lib/ladlib-main.sif") 0 1).2.1 rfl (by decide)

/-- C9: `UnknownVersionError` is declared (`Err.unknownVersion`) but no
execution path of the program ever raises it: not a full run, not
`smart_mkdir`, and not the temporary-download variant. -/
theorem claim9_unknown_version_dead (cfg : Config) (fs0 : FS)
    (pe : String → Nat) (absp : String → String) :
    ((run cfg fs0 pe absp).2.2 ≠ Except.error Err.unknownVersion) ∧
    (∀ fs d, smart_mkdir fs d ≠ Except.error (Err.unknownVersion)) ∧
    (∀ img tag tmpdir finalPath e1 e2,
      (pullViaTmp img tag tmpdir finalPath e1 e2).2 ≠
        Except.error Err.unknownVersion) := by
  refine ⟨?_, ?_, ?_⟩
  · intro h
    unfold run at h
    cases hb : bindDirectiveOf cfg fs0 with
    | error e =>
      rw [hb] at h
      dsimp only at h
      injection h with h1
      subst h1
      have := bindDirectiveOf_error_eq hb
      cases this
    | ok bind =>
      rw [hb] at h
      dsimp only at h
      cases hm : mkdirAll fs0 (dirsOf cfg absp) with
      | mk mkEvs rest =>
        obtain ⟨fs1, r⟩ := rest
        rw [hm] at h
        cases r with
        | error e =>
          dsimp only at h
          injection h with h1
          subst h1
          rcases mkdirAll_error_eq hm with h3 | h3 <;> cases h3
        | ok u =>
          cases u
          dsimp only at h
          rcases afterMkdir_result cfg fs1 bind pe absp mkEvs with h2 | h2 <;>
            rw [h2] at h
          · cases h
          · injection h with h1
            cases h1
  · intro fs d h
    rcases smart_mkdir_error_eq h with h1 | h1 <;> cases h1
  · intro img tag tmpdir finalPath e1 e2 h
    unfold pullViaTmp at h
    split at h
    · injection h with h1
      cases h1
    · dsimp only at h
      split at h
      · injection h with h1
        cases h1
      · cases h

/-- C9 witness at a concrete input. -/
theorem claim9_witness :
    (run cfgBase fsEmpty (fun _ => 0) id).2.2 ≠
      Except.error Err.unknownVersion :=
  (claim9_unknown_version_dead cfgBase fsEmpty (fun _ => 0) id).1

/-- C10: the bind directive string mounts every supplied host path at the
identical container path, in order, joined by single spaces:
it is empty for no paths, `-B p:p` for one path, and
`-B p:p ++ " " ++ rest` for more; and a run whose supplied bind paths all
exist resolves exactly this string. -/
theorem claim10_bind_directive :
    (bindDirective [] = "") ∧
    (∀ p, bindDirective [p] = "-B " ++ p ++ ":" ++ p) ∧
    (∀ p q ps, bindDirective (p :: q :: ps) =
      ("-B " ++ p ++ ":" ++ p) ++ " " ++ bindDirective (q :: ps)) ∧
    (∀ (cfg : Config) (fs : FS) ps, cfg.bindPaths = some ps → ps ≠ [] →
      (∀ p, p ∈ ps → fs.pathExists p = true) →
      bindDirectiveOf cfg fs = Except.ok (bindDirective ps)) := by
  refine ⟨rfl, fun p => rfl, fun p q ps => rfl, ?_⟩
  intro cfg fs ps hps hne h
  exact bindDirectiveOf_ok_of_all hps hne h

/-- C10 witness: two existing bind paths produce the two directives joined
by one space, in order. -/
theorem claim10_witness :
    bindDirective (["/data", "/scratch"]) =
      ("-B " ++ "/data" ++ ":" ++ "/data") ++ " " ++ bindDirective (["/scratch"]) ∧
    bindDirectiveOf { cfgBase with bindPaths := some (["/data", "/scratch"]) }
        fsAll = Except.ok (bindDirective (["/data", "/scratch"])) :=
  ⟨claim10_bind_directive.2.2.1 ("/data") ("/scratch") [],
   claim10_bind_directive.2.2.2 _ fsAll (["/data", "/scratch"]) rfl
     (by simp) (by simp [fsAll])⟩


/-- C4: the generator writes the rendered launcher for app `X` to
`bindir/X` and marks it executable; the rendered script's two exec lines
reference the executable name (the content is a function of container,
bind and exe only, never of the app name), and a missing executable name
defaults to the app name. -/
theorem claim4_launcher (app container bindir bind exe : String)
    (hexe : exe ≠ "") :
    make_launcher app container bindir bind (some exe) =
      [Event.writeScript (bindir ++ "/" ++ app) (launcherContent container bind exe),
       Event.runChmod ("chmod +x " ++ (bindir ++ "/" ++ app))] ∧
    make_launcher app container bindir bind none =
      [Event.writeScript (bindir ++ "/" ++ app) (launcherContent container bind app),
       Event.runChmod ("chmod +x " ++ (bindir ++ "/" ++ app))] ∧
    (∃ s1 s2 s3, launcherContent container bind exe =
      s1 ++ execLine container bind exe ++ s2 ++ execLine container bind exe ++ s3) := by
  refine ⟨?_, ?_, ?_⟩
  · simp [make_launcher, write_script, hexe]
  · simp [make_launcher, write_script]
  · refine ⟨"#!/usr/bin/env bash\n\n## Boilerplate to make pipes work\npiped_args=\nif [ -p /dev/stdin ]; then\n  # If we want to read the input line by line\n  while IFS= read line; do\n    if [ -z \"$piped_args\" ]; then\n      piped_args=\"$\x7bline\x7d\"\n    else \n      piped_args=\"$\x7bpiped_args\x7d\n$\x7bline\x7d\"\n    fi\n  done\nfi\n\n## Fire off the application wrapper\nif [ $\x7bpiped_args\x7d ]  ; then\n    echo -e $\x7bpiped_args\x7d | ", "\nelse\n    ", "\nfi\n", ?_⟩
    simp only [launcherContent, execLine]
    rw [show lkPre = "#!/usr/bin/env bash\n\n## Boilerplate to make pipes work\npiped_args=\nif [ -p /dev/stdin ]; then\n  # If we want to read the input line by line\n  while IFS= read line; do\n    if [ -z \"$piped_args\" ]; then\n      piped_args=\"$\x7bline\x7d\"\n    else \n      piped_args=\"$\x7bpiped_args\x7d\n$\x7bline\x7d\"\n    fi\n  done\nfi\n\n## Fire off the application wrapper\nif [ $\x7bpiped_args\x7d ]  ; then\n    echo -e $\x7bpiped_args\x7d | " ++ "singularity exec " from rfl,
      show lkMid = (" $@" ++ "\nelse\n    ") ++ "singularity exec " from rfl,
      show lkPost = " $@" ++ "\nfi\n" from rfl]
    simp only [String.append_assoc]

/-- C4 witness: a launcher for app name distinct from its executable name. -/
theorem claim4_witness :
    make_launcher ("lad-shell") ("/opt/lad/lib/ladlib-main.sif")
        ("/opt/lad/bin") ("") (some ("runner")) =
      [Event.writeScript ("/opt/lad/bin" ++ "/" ++ "lad-shell")
        (launcherContent ("/opt/lad/lib/ladlib-main.sif") ("") ("runner")),
       Event.runChmod ("chmod +x " ++ ("/opt/lad/bin" ++ "/" ++ "lad-shell"))] :=
  (claim4_launcher ("lad-shell") ("/opt/lad/lib/ladlib-main.sif")
    ("/opt/lad/bin") ("") ("runner") (by decide)).1

/-- C7: the generated module file decomposes so that the version argument
appears exactly in the header comment and the module-whatis line; the
segment holding the Tcl `set version` line is independent of the version
argument and contains the literal line `set version 4.1.4`; the version
also names the written file (`moduledir/version`). -/
theorem claim7_set_version_hardcoded (name version bindir : String) :
    moduleContent name version bindir =
      (mfL1 ++ name ++ " ") ++ version ++
        (mfL2 ++ name ++ mfL3 ++ name ++ " ") ++ version ++
        (mfL4 ++ bindir ++ mfL5) ∧
    (∃ x y, mfL4 ++ bindir ++ mfL5 = x ++ "\nset version 4.1.4\n" ++ y) ∧
    (∀ moduledir, make_modulefile name version moduledir bindir =
      Event.writeModule (moduledir ++ "/" ++ version)
        (moduleContent name version bindir)) := by
  refine ⟨?_, ?_, fun moduledir => rfl⟩
  · simp only [moduleContent, String.append_assoc]
  · refine ⟨"\"\n\n# For Tcl script use only",
      "\nprepend-path    PATH    " ++ bindir ++ mfL5, ?_⟩
    rw [show mfL4 = ("\"\n\n# For Tcl script use only" ++ "\nset version 4.1.4\n")
        ++ "\nprepend-path    PATH    " from rfl]
    simp only [String.append_assoc]


theorem pullCmd_eq (img tag c : String) :
    pullCmd img tag c =
      "singularity pull --force " ++ c ++ " " ++ dockerRef img tag := by
  simp only [pullCmd, pyJoin]
  rw [show ("singularity pull --force " : String) =
      ("singularity pull" ++ " ") ++ ("--force" ++ " ") from rfl]
  simp only [String.append_assoc]

theorem run_ok_elim2 {cfg : Config} {fs0 : FS} {pe : String → Nat}
    {absp : String → String}
    (h : (run cfg fs0 pe absp).2.2 = Except.ok ()) :
    ∃ bind mkEvs fs1, bindDirectiveOf cfg fs0 = Except.ok bind ∧
      mkdirAll fs0 (dirsOf cfg absp) = (mkEvs, fs1, Except.ok ()) := by
  cases hb : bindDirectiveOf cfg fs0 with
  | error e =>
    unfold run at h
    rw [hb] at h
    dsimp only at h
    cases h
  | ok bind =>
    cases hm : mkdirAll fs0 (dirsOf cfg absp) with
    | mk mkEvs rest =>
      obtain ⟨fs1, r⟩ := rest
      cases r with
      | error e =>
        unfold run at h
        rw [hb] at h
        dsimp only at h
        rw [hm] at h
        dsimp only at h
        cases h
      | ok u =>
        cases u
        exact ⟨bind, mkEvs, fs1, rfl, rfl⟩

theorem mkEvs_of_mkdirAll {fs0 fs1 : FS} {ds : List String}
    {mkEvs : List Event} {r : Except Err Unit}
    (hm : mkdirAll fs0 ds = (mkEvs, fs1, r)) :
    ∀ e, e ∈ mkEvs → ∃ x, e = Event.mkdir x := by
  have h2 := mkdirAll_events fs0 ds
  rw [hm] at h2
  exact h2

/-- Full characterisation of the module-file writes of a run: exactly one
when the run succeeds with a module root configured, none otherwise. -/
theorem run_filter_module (cfg : Config) (fs0 : FS) (pe : String → Nat)
    (absp : String → String) :
    (run cfg fs0 pe absp).1.filter Event.isModuleWrite =
      if (run cfg fs0 pe absp).2.2 = Except.ok () ∧ deployLocalOf cfg = false
      then [make_modulefile cfg.container cfg.version (moduledirOf cfg)
             (bindirOf cfg absp)]
      else [] := by
  unfold run
  cases hb : bindDirectiveOf cfg fs0 with
  | error e => simp
  | ok bind =>
    dsimp only
    cases hm : mkdirAll fs0 (dirsOf cfg absp) with
    | mk mkEvs rest =>
      obtain ⟨fs1, r⟩ := rest
      have hmk := mkEvs_of_mkdirAll hm
      cases r with
      | error e =>
        dsimp only
        rw [no_module_of_mkdir_events hmk]
        simp
      | ok u =>
        cases u
        dsimp only
        unfold afterMkdir
        dsimp only
        by_cases hc :
            (!fs1.pathExists (containerPath cfg absp) || cfg.force) = true
        · rw [if_pos hc]
          by_cases hp :
              pe (pullCmd cfg.container cfg.version (containerPath cfg absp)) ≠ 0
          · rw [if_pos hp]
            dsimp only
            rw [List.filter_append, no_module_of_mkdir_events hmk]
            simp [Event.isModuleWrite]
          · rw [if_neg hp]
            dsimp only
            rw [List.filter_append, List.filter_append,
              no_module_of_mkdir_events hmk, generatorEvents_filter_module]
            by_cases hdl : deployLocalOf cfg = false
            · simp [hdl, Event.isModuleWrite]
            · have hdl2 : deployLocalOf cfg = true := by
                cases hx : deployLocalOf cfg
                · exact absurd hx hdl
                · rfl
              simp [hdl2, Event.isModuleWrite]
        · rw [if_neg hc]
          dsimp only
          rw [List.filter_append, List.filter_append,
            no_module_of_mkdir_events hmk, generatorEvents_filter_module,
            warnEvents_filter_module]
          by_cases hdl : deployLocalOf cfg = false
          · simp [hdl]
          · have hdl2 : deployLocalOf cfg = true := by
              cases hx : deployLocalOf cfg
              · exact absurd hx hdl
              · rfl
            simp [hdl2]

/-- C1: for every run that passes bind-path validation and directory
provisioning, the pull command is invoked iff the force flag is set or the
container artifact is absent at its computed path; with `force=false` and
an existing artifact no pull happens and the WARNING is emitted; with
`force=true` the pull always happens. -/
theorem claim1_pull_iff (cfg : Config) (fs0 : FS) (pe : String → Nat)
    (absp : String → String) (h : provisioned cfg fs0 absp) :
    pullInvoked (run cfg fs0 pe absp).1 =
      (cfg.force ||
        !(run cfg fs0 pe absp).2.1.pathExists (containerPath cfg absp)) ∧
    (cfg.force = false →
      (run cfg fs0 pe absp).2.1.pathExists (containerPath cfg absp) = true →
      pullInvoked (run cfg fs0 pe absp).1 = false ∧
        Event.warn ("WARNING: Container found at " ++ containerPath cfg absp)
          ∈ (run cfg fs0 pe absp).1) ∧
    (cfg.force = true → pullInvoked (run cfg fs0 pe absp).1 = true) := by
  obtain ⟨bind, mkEvs, fs1, hb, hm⟩ := provisioned_elim h
  have hnp : mkEvs.any Event.isPull = false :=
    no_pull_of_mkdir_events (mkEvs_of_mkdirAll hm)
  have hfs := run_fs1 pe hb hm
  rw [hfs, run_eq_afterMkdir hb hm]
  unfold afterMkdir
  dsimp only
  by_cases hc : (!fs1.pathExists (containerPath cfg absp) || cfg.force) = true
  · have hc2 :
        (cfg.force || !fs1.pathExists (containerPath cfg absp)) = true := by
      rw [Bool.or_comm]
      exact hc
    rw [if_pos hc]
    by_cases hp :
        pe (pullCmd cfg.container cfg.version (containerPath cfg absp)) ≠ 0
    · rw [if_pos hp]
      dsimp only
      refine ⟨?_, ?_, fun _ => ?_⟩
      · rw [hc2]
        simp [pullInvoked, List.any_append, hnp, Event.isPull]
      · intro hf hx
        rw [hf, hx] at hc
        simp at hc
      · simp [pullInvoked, List.any_append, hnp, Event.isPull]
    · rw [if_neg hp]
      dsimp only
      refine ⟨?_, ?_, fun _ => ?_⟩
      · rw [hc2]
        simp [pullInvoked, List.any_append, hnp, Event.isPull,
          generatorEvents_no_pull]
      · intro hf hx
        rw [hf, hx] at hc
        simp at hc
      · simp [pullInvoked, List.any_append, hnp, Event.isPull,
          generatorEvents_no_pull]
  · rw [if_neg hc]
    dsimp only
    have hx : (!fs1.pathExists (containerPath cfg absp) || cfg.force) = false := by
      cases hxx : (!fs1.pathExists (containerPath cfg absp) || cfg.force)
      · rfl
      · exact absurd hxx hc
    rw [Bool.or_eq_false_iff] at hx
    obtain ⟨hx1, hx2⟩ := hx
    have hx3 : fs1.pathExists (containerPath cfg absp) = true := by
      cases hxy : fs1.pathExists (containerPath cfg absp)
      · rw [hxy] at hx1
        simp at hx1
      · rfl
    refine ⟨?_, ?_, ?_⟩
    · rw [hx2, hx3]
      simp [pullInvoked, List.any_append, hnp, Event.isPull,
        generatorEvents_no_pull, warnEvents_no_pull]
    · intro hf hx4
      constructor
      · simp [pullInvoked, List.any_append, hnp, Event.isPull,
          generatorEvents_no_pull, warnEvents_no_pull]
      · simp [warnEvents, List.mem_append]
    · intro hf
      rw [hf] at hx2
      cases hx2

/-- C1 witness: with `--force` on an empty host the pull is invoked. -/
theorem claim1_witness :
    pullInvoked (run cfgForce fsEmpty (fun _ => 0) id).1 = true :=
  (claim1_pull_iff cfgForce fsEmpty (fun _ => 0) id ⟨rfl, rfl⟩).2.2 rfl

/-- C5: the container artifact path is `libdir/img-version.sif`, the pull
command references `docker://apanta123/img:version`, and when the pull runs
(artifact absent or force set) a non-zero exit status yields
`ContainerDownloadError`. -/
theorem claim5_pull_command (cfg : Config) (fs0 : FS) (pe : String → Nat)
    (absp : String → String) (h : provisioned cfg fs0 absp)
    (hcond : cfg.force = true ∨
      (run cfg fs0 pe absp).2.1.pathExists (containerPath cfg absp) = false) :
    containerPath cfg absp =
      libdirOf cfg absp ++ "/" ++ cfg.container ++ "-" ++ cfg.version ++ ".sif" ∧
    pullCmd cfg.container cfg.version (containerPath cfg absp) =
      "singularity pull --force " ++ containerPath cfg absp ++ " " ++
        ("docker://apanta123/" ++ cfg.container ++ ":" ++ cfg.version) ∧
    Event.runPull (pullCmd cfg.container cfg.version (containerPath cfg absp))
      ∈ (run cfg fs0 pe absp).1 ∧
    (pe (pullCmd cfg.container cfg.version (containerPath cfg absp)) ≠ 0 →
      (run cfg fs0 pe absp).2.2 = Except.error Err.containerDownload) := by
  obtain ⟨bind, mkEvs, fs1, hb, hm⟩ := provisioned_elim h
  have hfs := run_fs1 pe hb hm
  rw [hfs] at hcond
  have hc : (!fs1.pathExists (containerPath cfg absp) || cfg.force) = true := by
    rcases hcond with hf | hx
    · rw [hf]
      simp
    · rw [hx]
      simp
  refine ⟨rfl, ?_, ?_, ?_⟩
  · rw [pullCmd_eq]
    rfl
  · rw [run_eq_afterMkdir hb hm]
    unfold afterMkdir
    dsimp only
    rw [if_pos hc]
    by_cases hp :
        pe (pullCmd cfg.container cfg.version (containerPath cfg absp)) ≠ 0
    · rw [if_pos hp]
      simp [List.mem_append]
    · rw [if_neg hp]
      simp [List.mem_append]
  · intro hp
    rw [run_eq_afterMkdir hb hm]
    unfold afterMkdir
    dsimp only
    rw [if_pos hc, if_pos hp]

/-- C5 witness: forced pull with non-zero exit fails with
`ContainerDownloadError`. -/
theorem claim5_witness :
    (run cfgForce fsEmpty (fun _ => 1) id).2.2 =
      Except.error Err.containerDownload :=
  (claim5_pull_command cfgForce fsEmpty (fun _ => 1) id ⟨rfl, rfl⟩
    (Or.inl rfl)).2.2.2 (by decide)

/-- C6: a successful run with a module root `m` configured writes exactly
one module file, at `moduledir/version` with `moduledir = m/container`;
a run with no module root configured writes none. -/
theorem claim6_module_file (cfg : Config) (fs0 : FS) (pe : String → Nat)
    (absp : String → String) (m : String)
    (hok : (run cfg fs0 pe absp).2.2 = Except.ok ())
    (hmp : cfg.modulePath = some m) (hm0 : m ≠ "") :
    moduledirOf cfg = m ++ "/" ++ cfg.container ∧
    (run cfg fs0 pe absp).1.filter Event.isModuleWrite =
      [Event.writeModule (moduledirOf cfg ++ "/" ++ cfg.version)
        (moduleContent cfg.container cfg.version (bindirOf cfg absp))] ∧
    (∀ (cfg2 : Config) (fs2 : FS) (pe2 : String → Nat)
        (absp2 : String → String),
      deployLocalOf cfg2 = true →
      (run cfg2 fs2 pe2 absp2).1.filter Event.isModuleWrite = []) := by
  have hdl : deployLocalOf cfg = false := by
    simp [deployLocalOf, hmp, hm0]
  refine ⟨?_, ?_, ?_⟩
  · simp [moduledirOf, hmp]
  · rw [run_filter_module, if_pos ⟨hok, hdl⟩]
    rfl
  · intro cfg2 fs2 pe2 absp2 hdl2
    rw [run_filter_module,
      if_neg (by intro hcon; rw [hdl2] at hcon; simp at hcon)]

/-- C6 witness: a concrete successful run with `-m /modroot` writes exactly
the one expected module file. -/
theorem claim6_witness :
    (run cfgMod fsEmpty (fun _ => 0) id).1.filter Event.isModuleWrite =
      [Event.writeModule (moduledirOf cfgMod ++ "/" ++ cfgMod.version)
        (moduleContent cfgMod.container cfgMod.version (bindirOf cfgMod id))] :=
  (claim6_module_file cfgMod fsEmpty (fun _ => 0) id ("/modroot") rfl rfl
    (by decide)).2.1

/-- C7 witness: concrete instantiation of the module-file decomposition. -/
theorem claim7_witness :
    moduleContent ("ladlib") ("main") ("/opt/lad/bin") =
      (mfL1 ++ "ladlib" ++ " ") ++ "main" ++
        (mfL2 ++ "ladlib" ++ mfL3 ++ "ladlib" ++ " ") ++ "main" ++
        (mfL4 ++ "/opt/lad/bin" ++ mfL5) :=
  (claim7_set_version_hardcoded ("ladlib") ("main") ("/opt/lad/bin")).1
